import Mathlib

/-!
Verification development for the `signal_generator` firmware (src/main.c).

The repository contains two variants of the same program in one translation
unit: a continuous variant (lines 1-121) whose feeder loop runs forever, and a
button-gated variant (lines 122-268) that emits a bounded 5-second session per
button press.

Modelling conventions:
* C `float` arithmetic is modelled as exact rational arithmetic over `ℚ`.
  For every concrete input used below the IEEE-754 single-precision
  computation and the exact rational computation produce the same integer
  cycle counts after truncation.
* The C cast `(uint32_t)x` of a non-negative float truncates toward zero;
  it is modelled as `Int.floor` followed by `Int.toNat` and reduction
  modulo 2^32.
* `uint32_t` subtraction wraps modulo 2^32 and is modelled explicitly.
* The global configuration constants of main.c (`FREQUENCY_HZ`,
  `PULSE_WIDTH_US`, `PHASE_SHIFT_US`) are lifted to parameters `freq`, `pw`,
  `ps` so that properties quantified over every `SignalSpec` can be stated;
  the source's fixed values appear as the constants below and instantiate the
  parameters wherever a claim is about the shipped configuration.
-/

namespace SignalGenerator

/-- `const float FREQUENCY_HZ = 1000.0f` (main.c lines 8, 135). -/
def FREQUENCY_HZ : ℚ := 1000

/-- `const float PULSE_WIDTH_US = 5.0f` (main.c lines 9, 136). -/
def PULSE_WIDTH_US : ℚ := 5

/-- `const float PHASE_SHIFT_US = 5.0f` (main.c lines 10, 137). -/
def PHASE_SHIFT_US : ℚ := 5

/-- `float pio_clk_div = 12.5f` in both variants' `main` (lines 27, 163). -/
def PIO_CLK_DIV : ℚ := 25 / 2

/-- `const uint64_t SIGNAL_DURATION_US = 5 * 1000 * 1000` (main.c line 141). -/
def SIGNAL_DURATION_US : ℕ := 5 * 1000 * 1000

/-- Number of values of `uint32_t`. -/
def U32_SIZE : ℕ := 4294967296

/-- The C cast `(uint32_t)x` applied to a float holding a non-negative value:
truncation toward zero, reduced into the `uint32_t` range. -/
def toU32 (x : ℚ) : ℕ := (Int.floor x).toNat % U32_SIZE

/-- `uint32_t` subtraction `a - b`, wrapping modulo 2^32. -/
def u32Sub (a b : ℕ) : ℕ := (a % U32_SIZE + (U32_SIZE - b % U32_SIZE)) % U32_SIZE

/-- The four loop counters handed to the PIO state machine
(`delay_A`, `delay_B`, `delay_C`, `delay_D` in main.c). -/
structure DelaySet where
  A : ℕ
  B : ℕ
  C : ℕ
  D : ℕ
deriving DecidableEq, Repr

/-- The per-phase overhead correction applied by both variants
(main.c lines 79-82 and 234-237): `v > 4 ? v - 4 : 0`. -/
def clampOverhead (v : ℕ) : ℕ := if 4 < v then v - 4 else 0

/-! ### Continuous variant (main.c lines 56-83) -/

namespace Continuous

/-- `float pio_freq_hz = sys_clk_hz / pio_clk_div` (line 62). -/
def pio_freq_hz (sys_clk_hz pio_clk_div : ℚ) : ℚ := sys_clk_hz / pio_clk_div

/-- `float period_us = 1e6f / FREQUENCY_HZ` (line 65), with the frequency as a
parameter. -/
def period_us (freq : ℚ) : ℚ := 1000000 / freq

/-- `float duration_D_us = period_us - PULSE_WIDTH_US - PHASE_SHIFT_US - PULSE_WIDTH_US`
(line 67). -/
def duration_D_us (freq pw ps : ℚ) : ℚ := period_us freq - pw - ps - pw

/-- `uint32_t cycles_A = (uint32_t)(PULSE_WIDTH_US * (pio_freq_hz / 1e6f))` (line 71). -/
def cycles_A (sys_clk_hz pio_clk_div pw : ℚ) : ℕ :=
  toU32 (pw * (pio_freq_hz sys_clk_hz pio_clk_div / 1000000))

/-- `uint32_t cycles_B = (uint32_t)(PHASE_SHIFT_US * (pio_freq_hz / 1e6f))` (line 72). -/
def cycles_B (sys_clk_hz pio_clk_div ps : ℚ) : ℕ :=
  toU32 (ps * (pio_freq_hz sys_clk_hz pio_clk_div / 1000000))

/-- `uint32_t cycles_C = (uint32_t)(PULSE_WIDTH_US * (pio_freq_hz / 1e6f))` (line 73). -/
def cycles_C (sys_clk_hz pio_clk_div pw : ℚ) : ℕ :=
  toU32 (pw * (pio_freq_hz sys_clk_hz pio_clk_div / 1000000))

/-- `uint32_t cycles_D = (uint32_t)(duration_D_us * (pio_freq_hz / 1e6f))` (line 74). -/
def cycles_D (sys_clk_hz pio_clk_div freq pw ps : ℚ) : ℕ :=
  toU32 (duration_D_us freq pw ps * (pio_freq_hz sys_clk_hz pio_clk_div / 1000000))

/-- `calculate_delays` of the continuous variant (main.c lines 56-83):
direct-formula policy, then the 4-cycle overhead clamp of lines 79-82. -/
def calculate_delays (sys_clk_hz pio_clk_div freq pw ps : ℚ) : DelaySet where
  A := clampOverhead (cycles_A sys_clk_hz pio_clk_div pw)
  B := clampOverhead (cycles_B sys_clk_hz pio_clk_div ps)
  C := clampOverhead (cycles_C sys_clk_hz pio_clk_div pw)
  D := clampOverhead (cycles_D sys_clk_hz pio_clk_div freq pw ps)

end Continuous

/-! ### Gated variant (main.c lines 215-238) -/

namespace Gated

/-- `float pio_clk_hz = sys_clk_hz / pio_clk_div` (line 219). -/
def pio_clk_hz (sys_clk_hz pio_clk_div : ℚ) : ℚ := sys_clk_hz / pio_clk_div

/-- `float period_s = 1.0f / FREQUENCY_HZ` (line 220). -/
def period_s (freq : ℚ) : ℚ := 1 / freq

/-- `uint32_t total_pio_cycles = (uint32_t)(period_s * pio_clk_hz)` (line 221). -/
def total_pio_cycles (sys_clk_hz pio_clk_div freq : ℚ) : ℕ :=
  toU32 (period_s freq * pio_clk_hz sys_clk_hz pio_clk_div)

/-- `uint32_t pulse_width_cycles = (uint32_t)(PULSE_WIDTH_US * 1e-6f * pio_clk_hz)`
(line 222). -/
def pulse_width_cycles (sys_clk_hz pio_clk_div pw : ℚ) : ℕ :=
  toU32 (pw * (1 / 1000000) * pio_clk_hz sys_clk_hz pio_clk_div)

/-- `uint32_t phase_shift_cycles = (uint32_t)(PHASE_SHIFT_US * 1e-6f * pio_clk_hz)`
(line 223). -/
def phase_shift_cycles (sys_clk_hz pio_clk_div ps : ℚ) : ℕ :=
  toU32 (ps * (1 / 1000000) * pio_clk_hz sys_clk_hz pio_clk_div)

/-- `uint32_t event_A_duration = pulse_width_cycles` (line 226). -/
def event_A_duration (sys_clk_hz pio_clk_div pw : ℚ) : ℕ :=
  pulse_width_cycles sys_clk_hz pio_clk_div pw

/-- `uint32_t event_B_duration = phase_shift_cycles` (line 227). -/
def event_B_duration (sys_clk_hz pio_clk_div ps : ℚ) : ℕ :=
  phase_shift_cycles sys_clk_hz pio_clk_div ps

/-- `uint32_t event_C_duration = pulse_width_cycles` (line 228). -/
def event_C_duration (sys_clk_hz pio_clk_div pw : ℚ) : ℕ :=
  pulse_width_cycles sys_clk_hz pio_clk_div pw

/-- `uint32_t event_D_duration = total_pio_cycles - event_A_duration - event_B_duration - event_C_duration`
(line 229), with each `uint32_t` subtraction wrapping modulo 2^32. -/
def event_D_duration (sys_clk_hz pio_clk_div freq pw ps : ℚ) : ℕ :=
  u32Sub (u32Sub (u32Sub (total_pio_cycles sys_clk_hz pio_clk_div freq)
      (event_A_duration sys_clk_hz pio_clk_div pw))
    (event_B_duration sys_clk_hz pio_clk_div ps))
  (event_C_duration sys_clk_hz pio_clk_div pw)

/-- `calculate_delays` of the gated variant (main.c lines 215-238):
period-residual policy, then the 4-cycle overhead clamp of lines 234-237. -/
def calculate_delays (sys_clk_hz pio_clk_div freq pw ps : ℚ) : DelaySet where
  A := clampOverhead (event_A_duration sys_clk_hz pio_clk_div pw)
  B := clampOverhead (event_B_duration sys_clk_hz pio_clk_div ps)
  C := clampOverhead (event_C_duration sys_clk_hz pio_clk_div pw)
  D := clampOverhead (event_D_duration sys_clk_hz pio_clk_div freq pw ps)

end Gated

/-! ### Evaluation helpers -/

/-- Evaluation rule for the modelled `(uint32_t)` cast at an in-range value. -/
theorem toU32_eq {x : ℚ} {n : ℕ} (h : Int.floor x = (n : ℤ)) (hn : n < U32_SIZE) :
    toU32 x = n := by
  simp [toU32, h, Nat.mod_eq_of_lt hn]

theorem gated_event_A_default : Gated.event_A_duration 125000000 (25 / 2) 5 = 50 := by
  rw [Gated.event_A_duration, Gated.pulse_width_cycles]
  exact toU32_eq (by norm_num [Gated.pio_clk_hz]) (by norm_num [U32_SIZE])

theorem gated_event_B_default : Gated.event_B_duration 125000000 (25 / 2) 5 = 50 := by
  rw [Gated.event_B_duration, Gated.phase_shift_cycles]
  exact toU32_eq (by norm_num [Gated.pio_clk_hz]) (by norm_num [U32_SIZE])

theorem gated_event_C_default : Gated.event_C_duration 125000000 (25 / 2) 5 = 50 := by
  rw [Gated.event_C_duration, Gated.pulse_width_cycles]
  exact toU32_eq (by norm_num [Gated.pio_clk_hz]) (by norm_num [U32_SIZE])

theorem gated_total_default : Gated.total_pio_cycles 125000000 (25 / 2) 1000 = 10000 := by
  rw [Gated.total_pio_cycles]
  exact toU32_eq (by norm_num [Gated.period_s, Gated.pio_clk_hz]) (by norm_num [U32_SIZE])

theorem gated_event_D_default : Gated.event_D_duration 125000000 (25 / 2) 1000 5 5 = 9850 := by
  rw [Gated.event_D_duration, gated_total_default, gated_event_A_default,
    gated_event_B_default, gated_event_C_default]
  decide

/-- Gated `calculate_delays` evaluated at the shipped configuration. -/
theorem gated_delays_default :
    Gated.calculate_delays 125000000 (25 / 2) 1000 5 5 =
      { A := 46, B := 46, C := 46, D := 9846 } := by
  rw [Gated.calculate_delays, gated_event_A_default, gated_event_B_default,
    gated_event_C_default, gated_event_D_default]
  decide

theorem cont_cycles_A_default : Continuous.cycles_A 125000000 (25 / 2) 5 = 50 := by
  rw [Continuous.cycles_A]
  exact toU32_eq (by norm_num [Continuous.pio_freq_hz]) (by norm_num [U32_SIZE])

theorem cont_cycles_B_default : Continuous.cycles_B 125000000 (25 / 2) 5 = 50 := by
  rw [Continuous.cycles_B]
  exact toU32_eq (by norm_num [Continuous.pio_freq_hz]) (by norm_num [U32_SIZE])

theorem cont_cycles_C_default : Continuous.cycles_C 125000000 (25 / 2) 5 = 50 := by
  rw [Continuous.cycles_C]
  exact toU32_eq (by norm_num [Continuous.pio_freq_hz]) (by norm_num [U32_SIZE])

theorem cont_cycles_D_default : Continuous.cycles_D 125000000 (25 / 2) 1000 5 5 = 9850 := by
  rw [Continuous.cycles_D]
  exact toU32_eq
    (by norm_num [Continuous.duration_D_us, Continuous.period_us, Continuous.pio_freq_hz])
    (by norm_num [U32_SIZE])

/-- Continuous `calculate_delays` evaluated at the shipped configuration. -/
theorem cont_delays_default :
    Continuous.calculate_delays 125000000 (25 / 2) 1000 5 5 =
      { A := 46, B := 46, C := 46, D := 9846 } := by
  rw [Continuous.calculate_delays, cont_cycles_A_default, cont_cycles_B_default,
    cont_cycles_C_default, cont_cycles_D_default]
  decide

/-! ### Claim theorems about the delay calculation -/

/-- Claim C1: for sys_clk_hz = 125,000,000, divider = 12.5, frequency 1000 Hz,
pulse width 5 us, phase shift 5 us, the gated variant's `calculate_delays`
produces exactly A = 46, B = 46, C = 46, D = 9846. -/
theorem gated_worked_example :
    Gated.calculate_delays 125000000 (25 / 2) FREQUENCY_HZ PULSE_WIDTH_US PHASE_SHIFT_US =
      { A := 46, B := 46, C := 46, D := 9846 } := by
  rw [FREQUENCY_HZ, PULSE_WIDTH_US, PHASE_SHIFT_US]
  exact gated_delays_default

/-- Claim C9: the continuous variant's direct-formula `calculate_delays` and the
gated variant's period-residual `calculate_delays` produce identical values on
the default configuration sys_clk_hz = 125,000,000, divider = 12.5, with the
shared constants frequency 1000 Hz, pulse width 5 us, phase shift 5 us. -/
theorem variants_agree_on_default_config :
    Continuous.calculate_delays 125000000 PIO_CLK_DIV FREQUENCY_HZ PULSE_WIDTH_US PHASE_SHIFT_US =
      Gated.calculate_delays 125000000 PIO_CLK_DIV FREQUENCY_HZ PULSE_WIDTH_US PHASE_SHIFT_US := by
  rw [FREQUENCY_HZ, PULSE_WIDTH_US, PHASE_SHIFT_US, PIO_CLK_DIV]
  rw [cont_delays_default, gated_delays_default]

/-- Characterisation of one clamped output value in terms of its raw
pre-overhead cycle count: the value is `raw - 4` when `raw > 4`, `0` when
`raw <= 4`, and it is zero exactly when `raw <= 4`. -/
def clampSpec (raw out : ℕ) : Prop :=
  (4 < raw → out = raw - 4) ∧ (raw ≤ 4 → out = 0) ∧ (out = 0 ↔ raw ≤ 4)

theorem clampSpec_clampOverhead (r : ℕ) : clampSpec r (clampOverhead r) := by
  unfold clampSpec clampOverhead
  refine ⟨fun h => by simp [h], fun h => by simp [Nat.not_lt.mpr h], ?_⟩
  by_cases h : 4 < r
  · simp [h]
    omega
  · simp [h]
    omega

/-- Claim C2: in both variants, each of the four values stored into
`delay_A/B/C/D` equals its raw pre-overhead cycle count minus 4 when that raw
count exceeds 4 and equals 0 otherwise, and an output is 0 exactly when its
raw count is at most 4 (non-negativity is inherent in the `ℕ`-valued model). -/
theorem delays_overhead_clamp (sys_clk_hz pio_clk_div freq pw ps : ℚ) :
    clampSpec (Gated.event_A_duration sys_clk_hz pio_clk_div pw)
      (Gated.calculate_delays sys_clk_hz pio_clk_div freq pw ps).A ∧
    clampSpec (Gated.event_B_duration sys_clk_hz pio_clk_div ps)
      (Gated.calculate_delays sys_clk_hz pio_clk_div freq pw ps).B ∧
    clampSpec (Gated.event_C_duration sys_clk_hz pio_clk_div pw)
      (Gated.calculate_delays sys_clk_hz pio_clk_div freq pw ps).C ∧
    clampSpec (Gated.event_D_duration sys_clk_hz pio_clk_div freq pw ps)
      (Gated.calculate_delays sys_clk_hz pio_clk_div freq pw ps).D ∧
    clampSpec (Continuous.cycles_A sys_clk_hz pio_clk_div pw)
      (Continuous.calculate_delays sys_clk_hz pio_clk_div freq pw ps).A ∧
    clampSpec (Continuous.cycles_B sys_clk_hz pio_clk_div ps)
      (Continuous.calculate_delays sys_clk_hz pio_clk_div freq pw ps).B ∧
    clampSpec (Continuous.cycles_C sys_clk_hz pio_clk_div pw)
      (Continuous.calculate_delays sys_clk_hz pio_clk_div freq pw ps).C ∧
    clampSpec (Continuous.cycles_D sys_clk_hz pio_clk_div freq pw ps)
      (Continuous.calculate_delays sys_clk_hz pio_clk_div freq pw ps).D :=
  ⟨clampSpec_clampOverhead _, clampSpec_clampOverhead _, clampSpec_clampOverhead _,
   clampSpec_clampOverhead _, clampSpec_clampOverhead _, clampSpec_clampOverhead _,
   clampSpec_clampOverhead _, clampSpec_clampOverhead _⟩

/-! ### Underflow-freedom and period conservation for the gated variant -/

/-- `uint32_t` subtraction agrees with truncated subtraction when no underflow occurs. -/
theorem u32Sub_eq_sub {a b : ℕ} (hba : b ≤ a) (ha : a < U32_SIZE) : u32Sub a b = a - b := by
  unfold u32Sub U32_SIZE at *
  omega

/-- The chained `uint32_t` subtraction `t - a - b - c` agrees with truncated
subtraction when no step underflows. -/
theorem u32Sub_chain_eq {t a b c : ℕ} (h : a + b + c ≤ t) (ht : t < U32_SIZE) :
    u32Sub (u32Sub (u32Sub t a) b) c = t - (a + b + c) := by
  unfold u32Sub U32_SIZE at *
  omega

/-- Core arithmetic fact for the gated variant: under the `SignalSpec` invariant
`2*pw + ps < 1e6/freq` (with non-negative durations, positive tick frequency and
a period that fits `uint32_t`), the raw A/B/C cycle counts sum to at most the
total period cycle count, and the chained `uint32_t` subtraction computing the
raw D count does not wrap. -/
theorem gated_no_underflow_core (sys_clk_hz pio_clk_div freq pw ps : ℚ)
    (hk : 0 < Gated.pio_clk_hz sys_clk_hz pio_clk_div) (hfreq : 0 < freq)
    (hpw : 0 ≤ pw) (hps : 0 ≤ ps)
    (hinv : 2 * pw + ps < 1000000 / freq)
    (htot : Int.floor (Gated.period_s freq * Gated.pio_clk_hz sys_clk_hz pio_clk_div) <
      (U32_SIZE : ℤ)) :
    Gated.event_A_duration sys_clk_hz pio_clk_div pw +
        Gated.event_B_duration sys_clk_hz pio_clk_div ps +
        Gated.event_C_duration sys_clk_hz pio_clk_div pw ≤
      Gated.total_pio_cycles sys_clk_hz pio_clk_div freq ∧
    Gated.event_D_duration sys_clk_hz pio_clk_div freq pw ps =
      Gated.total_pio_cycles sys_clk_hz pio_clk_div freq -
        (Gated.event_A_duration sys_clk_hz pio_clk_div pw +
          Gated.event_B_duration sys_clk_hz pio_clk_div ps +
          Gated.event_C_duration sys_clk_hz pio_clk_div pw) := by
  set k := Gated.pio_clk_hz sys_clk_hz pio_clk_div with hkdef
  set a := pw * (1 / 1000000) * k with hadef
  set b := ps * (1 / 1000000) * k with hbdef
  set x := Gated.period_s freq * k with hxdef
  have ha0 : 0 ≤ a := by
    rw [hadef]
    have : (0:ℚ) ≤ 1 / 1000000 := by norm_num
    exact mul_nonneg (mul_nonneg hpw this) hk.le
  have hb0 : 0 ≤ b := by
    rw [hbdef]
    have : (0:ℚ) ≤ 1 / 1000000 := by norm_num
    exact mul_nonneg (mul_nonneg hps this) hk.le
  have habc : a + b + a < x := by
    have hpos : (0:ℚ) < 1 / 1000000 * k := by
      have : (0:ℚ) < 1 / 1000000 := by norm_num
      exact mul_pos this hk
    have hmul := mul_lt_mul_of_pos_right hinv hpos
    calc a + b + a = (2 * pw + ps) * (1 / 1000000 * k) := by rw [hadef, hbdef]; ring
      _ < 1000000 / freq * (1 / 1000000 * k) := hmul
      _ = x := by rw [hxdef, Gated.period_s]; field_simp; ring
  have hfa0 : (0:ℤ) ≤ Int.floor a := Int.floor_nonneg.mpr ha0
  have hfb0 : (0:ℤ) ≤ Int.floor b := Int.floor_nonneg.mpr hb0
  have hsum : Int.floor a + Int.floor b + Int.floor a ≤ Int.floor x := by
    rw [Int.le_floor]
    push_cast
    have h1 : (Int.floor a : ℚ) ≤ a := Int.floor_le a
    have h2 : (Int.floor b : ℚ) ≤ b := Int.floor_le b
    linarith
  have hA : Gated.event_A_duration sys_clk_hz pio_clk_div pw = (Int.floor a).toNat := by
    rw [Gated.event_A_duration, Gated.pulse_width_cycles, toU32, ← hkdef, ← hadef]
    have : Int.floor a < (U32_SIZE : ℤ) := by omega
    unfold U32_SIZE at this ⊢
    omega
  have hB : Gated.event_B_duration sys_clk_hz pio_clk_div ps = (Int.floor b).toNat := by
    rw [Gated.event_B_duration, Gated.phase_shift_cycles, toU32, ← hkdef, ← hbdef]
    have : Int.floor b < (U32_SIZE : ℤ) := by omega
    unfold U32_SIZE at this ⊢
    omega
  have hC : Gated.event_C_duration sys_clk_hz pio_clk_div pw = (Int.floor a).toNat := by
    rw [Gated.event_C_duration, Gated.pulse_width_cycles, toU32, ← hkdef, ← hadef]
    have : Int.floor a < (U32_SIZE : ℤ) := by omega
    unfold U32_SIZE at this ⊢
    omega
  have hT : Gated.total_pio_cycles sys_clk_hz pio_clk_div freq = (Int.floor x).toNat := by
    rw [Gated.total_pio_cycles, toU32, ← hkdef, ← hxdef]
    unfold U32_SIZE at htot ⊢
    omega
  have hTlt : (Int.floor x).toNat < U32_SIZE := by
    unfold U32_SIZE at htot ⊢
    omega
  have habcT : (Int.floor a).toNat + (Int.floor b).toNat + (Int.floor a).toNat ≤
      (Int.floor x).toNat := by omega
  refine ⟨by rw [hA, hB, hC, hT]; exact habcT, ?_⟩
  rw [Gated.event_D_duration, hA, hB, hC, hT]
  rw [u32Sub_chain_eq (by omega) hTlt]

/-- Claim C10: under the `SignalSpec` invariant, the chained `uint32_t`
subtraction `total_pio_cycles - event_A_duration - event_B_duration -
event_C_duration` in the gated `calculate_delays` does not underflow: the
truncated A, B and C cycle counts sum to at most `total_pio_cycles`, and the
raw D count equals the exact difference. -/
theorem gated_subtraction_no_underflow (sys_clk_hz pio_clk_div freq pw ps : ℚ)
    (hk : 0 < Gated.pio_clk_hz sys_clk_hz pio_clk_div) (hfreq : 0 < freq)
    (hpw : 0 ≤ pw) (hps : 0 ≤ ps)
    (hinv : 2 * pw + ps < 1000000 / freq)
    (htot : Int.floor (Gated.period_s freq * Gated.pio_clk_hz sys_clk_hz pio_clk_div) <
      (U32_SIZE : ℤ)) :
    Gated.event_A_duration sys_clk_hz pio_clk_div pw +
        Gated.event_B_duration sys_clk_hz pio_clk_div ps +
        Gated.event_C_duration sys_clk_hz pio_clk_div pw ≤
      Gated.total_pio_cycles sys_clk_hz pio_clk_div freq ∧
    Gated.event_D_duration sys_clk_hz pio_clk_div freq pw ps =
      Gated.total_pio_cycles sys_clk_hz pio_clk_div freq -
        (Gated.event_A_duration sys_clk_hz pio_clk_div pw +
          Gated.event_B_duration sys_clk_hz pio_clk_div ps +
          Gated.event_C_duration sys_clk_hz pio_clk_div pw) :=
  gated_no_underflow_core sys_clk_hz pio_clk_div freq pw ps hk hfreq hpw hps hinv htot

/-- Witness for C10 at the shipped configuration. -/
theorem gated_subtraction_no_underflow_witness :
    (0 < Gated.pio_clk_hz 125000000 (25 / 2)) ∧ ((0:ℚ) < 1000) ∧
    ((0:ℚ) ≤ 5) ∧ (2 * (5:ℚ) + 5 < 1000000 / 1000) ∧
    (Int.floor (Gated.period_s 1000 * Gated.pio_clk_hz 125000000 (25 / 2)) < (U32_SIZE : ℤ)) ∧
    (Gated.event_A_duration 125000000 (25 / 2) 5 + Gated.event_B_duration 125000000 (25 / 2) 5 +
        Gated.event_C_duration 125000000 (25 / 2) 5 ≤
      Gated.total_pio_cycles 125000000 (25 / 2) 1000 ∧
    Gated.event_D_duration 125000000 (25 / 2) 1000 5 5 =
      Gated.total_pio_cycles 125000000 (25 / 2) 1000 -
        (Gated.event_A_duration 125000000 (25 / 2) 5 +
          Gated.event_B_duration 125000000 (25 / 2) 5 +
          Gated.event_C_duration 125000000 (25 / 2) 5)) :=
  ⟨by rw [Gated.pio_clk_hz]; norm_num, by norm_num, by norm_num, by norm_num,
   by rw [Gated.period_s, Gated.pio_clk_hz]; norm_num [U32_SIZE],
   gated_subtraction_no_underflow 125000000 (25 / 2) 1000 5 5
     (by rw [Gated.pio_clk_hz]; norm_num) (by norm_num) (by norm_num) (by norm_num)
     (by norm_num)
     (by rw [Gated.period_s, Gated.pio_clk_hz]; norm_num [U32_SIZE])⟩

/-! ### Period conservation (claim C3) -/

/-- Claim C3, counterexample to the claim as stated: at the valid input
sys_clk_hz = 156,250,000, divider = 16 (tick frequency 9,765,625 Hz), with the
shipped frequency 1000 Hz, pulse width 5 us and phase shift 5 us, the four raw
pre-overhead cycle counts of the gated `calculate_delays` sum to 9765 (the
truncated period cycle count), while `round(period_us * tick_freq_hz / 1e6)` is
9766, so the sum does not equal the rounded value. -/
theorem gated_conservation_round_counterexample :
    (2 * PULSE_WIDTH_US + PHASE_SHIFT_US < 1000000 / FREQUENCY_HZ) ∧
    (0 < Gated.pio_clk_hz 156250000 16) ∧
    Gated.event_A_duration 156250000 16 5 + Gated.event_B_duration 156250000 16 5 +
        Gated.event_C_duration 156250000 16 5 +
        Gated.event_D_duration 156250000 16 1000 5 5 = 9765 ∧
    round (Continuous.period_us 1000 * Gated.pio_clk_hz 156250000 16 / 1000000) = 9766 ∧
    (9765 : ℕ) ≠ 9766 := by
  have hA : Gated.event_A_duration 156250000 16 5 = 48 := by
    rw [Gated.event_A_duration, Gated.pulse_width_cycles]
    exact toU32_eq (by norm_num [Gated.pio_clk_hz]) (by norm_num [U32_SIZE])
  have hB : Gated.event_B_duration 156250000 16 5 = 48 := by
    rw [Gated.event_B_duration, Gated.phase_shift_cycles]
    exact toU32_eq (by norm_num [Gated.pio_clk_hz]) (by norm_num [U32_SIZE])
  have hC : Gated.event_C_duration 156250000 16 5 = 48 := by
    rw [Gated.event_C_duration, Gated.pulse_width_cycles]
    exact toU32_eq (by norm_num [Gated.pio_clk_hz]) (by norm_num [U32_SIZE])
  have hT : Gated.total_pio_cycles 156250000 16 1000 = 9765 := by
    rw [Gated.total_pio_cycles]
    exact toU32_eq (by norm_num [Gated.period_s, Gated.pio_clk_hz]) (by norm_num [U32_SIZE])
  have hD : Gated.event_D_duration 156250000 16 1000 5 5 = 9621 := by
    rw [Gated.event_D_duration, hA, hB, hC, hT]
    decide
  refine ⟨by rw [PULSE_WIDTH_US, PHASE_SHIFT_US, FREQUENCY_HZ]; norm_num,
    by rw [Gated.pio_clk_hz]; norm_num, by rw [hA, hB, hC, hD], ?_, by norm_num⟩
  rw [Continuous.period_us, Gated.pio_clk_hz, round_eq]
  norm_num

/-- Claim C3, amended: in the gated `calculate_delays`, for every valid input
satisfying the `SignalSpec` invariant (non-negative durations, positive
frequency and tick frequency, period cycle count within `uint32_t` range), the
four raw per-phase cycle counts before overhead subtraction sum exactly to
`total_pio_cycles`, which is the TRUNCATION toward zero (not the rounding) of
`period_us * tick_freq_hz / 1e6`. -/
theorem gated_period_conservation_trunc (sys_clk_hz pio_clk_div freq pw ps : ℚ)
    (hk : 0 < Gated.pio_clk_hz sys_clk_hz pio_clk_div) (hfreq : 0 < freq)
    (hpw : 0 ≤ pw) (hps : 0 ≤ ps)
    (hinv : 2 * pw + ps < 1000000 / freq)
    (htot : Int.floor (Gated.period_s freq * Gated.pio_clk_hz sys_clk_hz pio_clk_div) <
      (U32_SIZE : ℤ)) :
    Gated.event_A_duration sys_clk_hz pio_clk_div pw +
        Gated.event_B_duration sys_clk_hz pio_clk_div ps +
        Gated.event_C_duration sys_clk_hz pio_clk_div pw +
        Gated.event_D_duration sys_clk_hz pio_clk_div freq pw ps =
      Gated.total_pio_cycles sys_clk_hz pio_clk_div freq ∧
    (Gated.total_pio_cycles sys_clk_hz pio_clk_div freq : ℤ) =
      Int.floor (Continuous.period_us freq * Gated.pio_clk_hz sys_clk_hz pio_clk_div / 1000000) := by
  obtain ⟨hle, hD⟩ := gated_no_underflow_core sys_clk_hz pio_clk_div freq pw ps
    hk hfreq hpw hps hinv htot
  constructor
  · omega
  · have harg : Continuous.period_us freq * Gated.pio_clk_hz sys_clk_hz pio_clk_div / 1000000 =
        Gated.period_s freq * Gated.pio_clk_hz sys_clk_hz pio_clk_div := by
      rw [Continuous.period_us, Gated.period_s]
      ring
    rw [harg, Gated.total_pio_cycles, toU32]
    have hx0 : (0:ℤ) ≤
        Int.floor (Gated.period_s freq * Gated.pio_clk_hz sys_clk_hz pio_clk_div) := by
      apply Int.floor_nonneg.mpr
      have : (0:ℚ) < Gated.period_s freq := by
        rw [Gated.period_s]
        positivity
      exact (mul_pos this hk).le
    unfold U32_SIZE at htot ⊢
    omega

/-- Witness for the amended C3 at the shipped configuration. -/
theorem gated_period_conservation_trunc_witness :
    (0 < Gated.pio_clk_hz 125000000 (25 / 2)) ∧ ((0:ℚ) < 1000) ∧
    ((0:ℚ) ≤ 5) ∧ (2 * (5:ℚ) + 5 < 1000000 / 1000) ∧
    (Int.floor (Gated.period_s 1000 * Gated.pio_clk_hz 125000000 (25 / 2)) < (U32_SIZE : ℤ)) ∧
    (Gated.event_A_duration 125000000 (25 / 2) 5 + Gated.event_B_duration 125000000 (25 / 2) 5 +
        Gated.event_C_duration 125000000 (25 / 2) 5 +
        Gated.event_D_duration 125000000 (25 / 2) 1000 5 5 =
      Gated.total_pio_cycles 125000000 (25 / 2) 1000 ∧
    (Gated.total_pio_cycles 125000000 (25 / 2) 1000 : ℤ) =
      Int.floor (Continuous.period_us 1000 * Gated.pio_clk_hz 125000000 (25 / 2) / 1000000)) :=
  ⟨by rw [Gated.pio_clk_hz]; norm_num, by norm_num, by norm_num, by norm_num,
   by rw [Gated.period_s, Gated.pio_clk_hz]; norm_num [U32_SIZE],
   gated_period_conservation_trunc 125000000 (25 / 2) 1000 5 5
     (by rw [Gated.pio_clk_hz]; norm_num) (by norm_num) (by norm_num) (by norm_num)
     (by norm_num)
     (by rw [Gated.period_s, Gated.pio_clk_hz]; norm_num [U32_SIZE])⟩

/-! ### Determinism and side-effect freedom of `calculate_delays` (claim C7) -/

/-- Program state visible around a `calculate_delays` call in `main`: the four
output variables `delay_A..delay_D` (written through the out-pointers) and an
indexed family standing for every other mutable memory cell of the program. -/
structure MainMem where
  delay_A : ℕ
  delay_B : ℕ
  delay_C : ℕ
  delay_D : ℕ
  other : ℕ → ℕ

/-- Effect of the gated variant's call
`calculate_delays(sys, div, &delay_A, &delay_B, &delay_C, &delay_D)`
(main.c line 168) on the program state: the four cells behind the out-pointers
are overwritten, nothing else is touched. -/
def Gated.calculate_delays_call (sys_clk_hz pio_clk_div freq pw ps : ℚ)
    (m : MainMem) : MainMem :=
  { m with
    delay_A := (Gated.calculate_delays sys_clk_hz pio_clk_div freq pw ps).A
    delay_B := (Gated.calculate_delays sys_clk_hz pio_clk_div freq pw ps).B
    delay_C := (Gated.calculate_delays sys_clk_hz pio_clk_div freq pw ps).C
    delay_D := (Gated.calculate_delays sys_clk_hz pio_clk_div freq pw ps).D }

/-- Effect of the continuous variant's call (main.c line 32) on the program
state. -/
def Continuous.calculate_delays_call (sys_clk_hz pio_clk_div freq pw ps : ℚ)
    (m : MainMem) : MainMem :=
  { m with
    delay_A := (Continuous.calculate_delays sys_clk_hz pio_clk_div freq pw ps).A
    delay_B := (Continuous.calculate_delays sys_clk_hz pio_clk_div freq pw ps).B
    delay_C := (Continuous.calculate_delays sys_clk_hz pio_clk_div freq pw ps).C
    delay_D := (Continuous.calculate_delays sys_clk_hz pio_clk_div freq pw ps).D }

/-- Claim C7: `calculate_delays` is deterministic and side-effect-free in both
variants. Two invocations with the same arguments from any two prior program
states store the same four values, those values are exactly the pure
`DelaySet`, and every memory cell other than the four outputs is unchanged. -/
theorem calculate_delays_deterministic_pure (sys_clk_hz pio_clk_div freq pw ps : ℚ)
    (m₁ m₂ : MainMem) :
    ((Gated.calculate_delays_call sys_clk_hz pio_clk_div freq pw ps m₁).delay_A =
        (Gated.calculate_delays_call sys_clk_hz pio_clk_div freq pw ps m₂).delay_A ∧
      (Gated.calculate_delays_call sys_clk_hz pio_clk_div freq pw ps m₁).delay_B =
        (Gated.calculate_delays_call sys_clk_hz pio_clk_div freq pw ps m₂).delay_B ∧
      (Gated.calculate_delays_call sys_clk_hz pio_clk_div freq pw ps m₁).delay_C =
        (Gated.calculate_delays_call sys_clk_hz pio_clk_div freq pw ps m₂).delay_C ∧
      (Gated.calculate_delays_call sys_clk_hz pio_clk_div freq pw ps m₁).delay_D =
        (Gated.calculate_delays_call sys_clk_hz pio_clk_div freq pw ps m₂).delay_D) ∧
    (Gated.calculate_delays_call sys_clk_hz pio_clk_div freq pw ps m₁).other = m₁.other ∧
    ((Continuous.calculate_delays_call sys_clk_hz pio_clk_div freq pw ps m₁).delay_A =
        (Continuous.calculate_delays_call sys_clk_hz pio_clk_div freq pw ps m₂).delay_A ∧
      (Continuous.calculate_delays_call sys_clk_hz pio_clk_div freq pw ps m₁).delay_B =
        (Continuous.calculate_delays_call sys_clk_hz pio_clk_div freq pw ps m₂).delay_B ∧
      (Continuous.calculate_delays_call sys_clk_hz pio_clk_div freq pw ps m₁).delay_C =
        (Continuous.calculate_delays_call sys_clk_hz pio_clk_div freq pw ps m₂).delay_C ∧
      (Continuous.calculate_delays_call sys_clk_hz pio_clk_div freq pw ps m₁).delay_D =
        (Continuous.calculate_delays_call sys_clk_hz pio_clk_div freq pw ps m₂).delay_D) ∧
    (Continuous.calculate_delays_call sys_clk_hz pio_clk_div freq pw ps m₁).other = m₁.other :=
  ⟨⟨rfl, rfl, rfl, rfl⟩, rfl, ⟨rfl, rfl, rfl, rfl⟩, rfl⟩

/-! ### The feeder loops (claims C4, C5, C8) -/

/-- Observable events of a feeder loop: an evaluation of the elapsed-time test
(gated variant only) or a blocking push of one value into the PIO TX FIFO. -/
inductive FeedEv where
  | timeCheck : FeedEv
  | push : ℕ → FeedEv
deriving DecidableEq, Repr

/-- Value carried by a push event, if any. -/
def FeedEv.pushValue : FeedEv → Option ℕ
  | .push v => some v
  | .timeCheck => none

/-- Whether an event is an evaluation of the elapsed-time test. -/
def FeedEv.isCheck : FeedEv → Bool
  | .push _ => false
  | .timeCheck => true

namespace Continuous

/-- The continuous variant's `while (true)` feeder loop (main.c lines 38-44),
unrolled for `fuel` iterations under the assumption that every blocking push
completes. Each iteration pushes `delay_A`, `delay_B`, `delay_C`, `delay_D`.
The first component is the loop's return value if it exited within `fuel`
iterations (`none` means it is still running); the second is the list of pushed
values in push order. -/
def feeder_loop (d : DelaySet) : ℕ → Option Unit × List ℕ
  | 0 => (none, [])
  | n + 1 =>
    ((feeder_loop d n).1, d.A :: d.B :: d.C :: d.D :: (feeder_loop d n).2)

end Continuous

namespace Gated

/-- The gated variant's session feeder loop (main.c lines 184-190):
`while (elapsed < SIGNAL_DURATION_US) { push A; push B; push C; push D; }`.
`t` is the elapsed wall-clock time in microseconds since `start_time`; `dt i`
is the (positive) wall-clock time consumed by the four blocking pushes of the
`i`-th quadruple. The elapsed-time test is re-evaluated only after a complete
quadruple. Returns the final elapsed time when the test fails (`none` if
`fuel` iterations were not enough), paired with the event trace. -/
def session_loop (d : DelaySet) (dur : ℕ) (dt : ℕ → ℕ) :
    ℕ → ℕ → ℕ → Option ℕ × List FeedEv
  | 0, _, _ => (none, [])
  | fuel + 1, i, t =>
    if t < dur then
      ((session_loop d dur dt fuel (i + 1) (t + dt i)).1,
        FeedEv.timeCheck :: FeedEv.push d.A :: FeedEv.push d.B :: FeedEv.push d.C ::
          FeedEv.push d.D :: (session_loop d dur dt fuel (i + 1) (t + dt i)).2)
    else (some t, [FeedEv.timeCheck])

/-- The session feeder loop as entered by `main`: elapsed time starts at 0. -/
def run_session (d : DelaySet) (dur : ℕ) (dt : ℕ → ℕ) (fuel : ℕ) :
    Option ℕ × List FeedEv :=
  session_loop d dur dt fuel 0 0

end Gated

/-- Pushes of the gated session loop always form complete A,B,C,D quadruples,
from any intermediate loop state. -/
theorem session_loop_pushes (d : DelaySet) (dur : ℕ) (dt : ℕ → ℕ) :
    ∀ fuel i t, ∃ k,
      ((Gated.session_loop d dur dt fuel i t).2.filterMap FeedEv.pushValue) =
        List.flatten (List.replicate k [d.A, d.B, d.C, d.D]) := by
  intro fuel
  induction fuel with
  | zero => exact fun i t => ⟨0, by simp [Gated.session_loop]⟩
  | succ n ih =>
    intro i t
    by_cases h : t < dur
    · obtain ⟨k, hk⟩ := ih (i + 1) (t + dt i)
      exact ⟨k + 1, by
        simp only [Gated.session_loop, if_pos h, List.filterMap, FeedEv.pushValue,
          List.replicate_succ, List.flatten]
        simp [hk, FeedEv.pushValue]⟩
    · exact ⟨0, by simp [Gated.session_loop, if_neg h, FeedEv.pushValue]⟩

/-- Claim C4: on every iteration, in both variants, the four delay values are
pushed to the PIO TX FIFO in the strict order A, B, C, D, with no value skipped
or reordered: the continuous feeder's push trace after `n` iterations is
exactly `n` copies of `[A, B, C, D]`, and the gated session loop's pushes are
exactly some number of copies of `[A, B, C, D]`. -/
theorem feeder_push_order (d : DelaySet) (n : ℕ) (dur : ℕ) (dt : ℕ → ℕ) (fuel : ℕ) :
    (Continuous.feeder_loop d n).2 = List.flatten (List.replicate n [d.A, d.B, d.C, d.D]) ∧
    ∃ k, ((Gated.run_session d dur dt fuel).2.filterMap FeedEv.pushValue) =
      List.flatten (List.replicate k [d.A, d.B, d.C, d.D]) := by
  constructor
  · induction n with
    | zero => simp [Continuous.feeder_loop]
    | succ m ih => simp [Continuous.feeder_loop, List.replicate_succ, ih]
  · exact session_loop_pushes d dur dt fuel 0 0

/-- Claim C8: the continuous variant's feeder loop never returns. Assuming each
blocking push completes, after any number `n` of iterations the loop has not
exited (there is no exit path) and has pushed exactly `4 * n` values. -/
theorem continuous_feeder_never_returns (d : DelaySet) (n : ℕ) :
    (Continuous.feeder_loop d n).1 = none ∧
    (Continuous.feeder_loop d n).2.length = 4 * n := by
  induction n with
  | zero => simp [Continuous.feeder_loop]
  | succ m ih =>
    refine ⟨by simp [Continuous.feeder_loop, ih.1], ?_⟩
    simp [Continuous.feeder_loop, ih.2]
    omega

/-- Generalised form of the session timing bound: from any elapsed time `t`
with `t < dur + q`, if the session loop exits with final elapsed time `T`, then
`dur ≤ T < dur + q` and the trace is `k` blocks of one time test followed by
the A,B,C,D quadruple, closed by the final (failing) time test. -/
theorem session_loop_bounds (d : DelaySet) (dur q : ℕ) (dt : ℕ → ℕ)
    (hdt : ∀ i, dt i ≤ q) :
    ∀ fuel i t T evs, t < dur + q →
      Gated.session_loop d dur dt fuel i t = (some T, evs) →
      dur ≤ T ∧ T < dur + q ∧ ∃ k,
        evs = List.flatten (List.replicate k
          [FeedEv.timeCheck, FeedEv.push d.A, FeedEv.push d.B, FeedEv.push d.C,
            FeedEv.push d.D]) ++ [FeedEv.timeCheck] := by
  intro fuel
  induction fuel with
  | zero =>
    intro i t T evs _ hEq
    simp [Gated.session_loop] at hEq
  | succ n ih =>
    intro i t T evs hbound hEq
    by_cases h : t < dur
    · simp only [Gated.session_loop, if_pos h, Prod.mk.injEq] at hEq
      obtain ⟨h1, h2⟩ := hEq
      have hrec : Gated.session_loop d dur dt n (i + 1) (t + dt i) =
          (some T, (Gated.session_loop d dur dt n (i + 1) (t + dt i)).2) := by
        rw [← h1]
      have hbound' : t + dt i < dur + q := by
        have := hdt i
        omega
      obtain ⟨hT1, hT2, k, hk⟩ := ih (i + 1) (t + dt i) T _ hbound' hrec
      refine ⟨hT1, hT2, k + 1, ?_⟩
      rw [← h2, hk, List.replicate_succ, List.flatten]
      simp
    · simp only [Gated.session_loop, if_neg h, Prod.mk.injEq] at hEq
      obtain ⟨h1, h2⟩ := hEq
      have ht : t = T := Option.some.inj h1
      refine ⟨by omega, by omega, 0, by simp [← h2]⟩

/-- Claim C5: in the gated variant, the elapsed-time test against the
5,000,000 us session duration is evaluated exactly once per pushed A,B,C,D
quadruple (never between the four pushes of one quadruple), and when the
session loop exits at elapsed time `T` (engine disabled immediately after),
the session satisfies `SIGNAL_DURATION_US ≤ T < SIGNAL_DURATION_US + q`,
where `q` bounds the wall-clock time of one quadruple of pushes. -/
theorem session_elapsed_bounds (d : DelaySet) (q fuel T : ℕ) (dt : ℕ → ℕ)
    (evs : List FeedEv) (hq : 0 < q) (hdt : ∀ i, dt i ≤ q)
    (h : Gated.run_session d SIGNAL_DURATION_US dt fuel = (some T, evs)) :
    SIGNAL_DURATION_US ≤ T ∧ T < SIGNAL_DURATION_US + q ∧ ∃ k,
      evs = List.flatten (List.replicate k
        [FeedEv.timeCheck, FeedEv.push d.A, FeedEv.push d.B, FeedEv.push d.C,
          FeedEv.push d.D]) ++ [FeedEv.timeCheck] :=
  session_loop_bounds d SIGNAL_DURATION_US q dt hdt fuel 0 0 T evs (by omega) h

/-- Witness for C5: each quadruple taking 3,000,000 us; the loop exits at
elapsed time 6,000,000 us, within [5000000, 8000000). -/
theorem session_elapsed_bounds_witness :
    (0 < 3000000) ∧ (∀ i : ℕ, (fun _ : ℕ => 3000000) i ≤ 3000000) ∧
    (Gated.run_session ⟨46, 46, 46, 9846⟩ SIGNAL_DURATION_US (fun _ => 3000000) 3 =
      (some 6000000,
        (Gated.run_session ⟨46, 46, 46, 9846⟩ SIGNAL_DURATION_US (fun _ => 3000000) 3).2)) ∧
    (SIGNAL_DURATION_US ≤ 6000000 ∧ 6000000 < SIGNAL_DURATION_US + 3000000 ∧ ∃ k,
      (Gated.run_session ⟨46, 46, 46, 9846⟩ SIGNAL_DURATION_US (fun _ => 3000000) 3).2 =
        List.flatten (List.replicate k
          [FeedEv.timeCheck, FeedEv.push 46, FeedEv.push 46, FeedEv.push 46,
            FeedEv.push 9846]) ++ [FeedEv.timeCheck]) :=
  ⟨by decide, fun i => Nat.le_refl 3000000, by decide,
    session_elapsed_bounds ⟨46, 46, 46, 9846⟩ 3000000 3 6000000 (fun _ => 3000000) _
      (by decide) (fun i => Nat.le_refl 3000000) (by decide)⟩

/-! ### The trigger state machine of the gated variant (claim C6) -/

/-- Control state of the gated variant's outer loop (main.c lines 171-203)
between two button reads. `idle` is the outer `while (true)` loop polling
`gpio_get(BUTTON_PIN)` at line 174; `cooldown` is the inner release-wait loop
at lines 196-199 entered after a session ends. (`Armed`/`Emitting` are
transient within one step here: a press observed in `idle` runs the whole
bounded session - enable, feed, disable - before the next button read.) -/
inductive TriggerState where
  | idle : TriggerState
  | cooldown : TriggerState
deriving DecidableEq, Repr

/-- One button read processed by the gated variant's control loop. The `Bool`
input is the value of `gpio_get(BUTTON_PIN)`: `true` = high = released,
`false` = low = pressed (active-low wiring with pull-up). Returns the next
control state and whether an emission session (engine enable, session feed,
engine disable) ran during this step. -/
def triggerStep : TriggerState → Bool → TriggerState × Bool
  | .idle, false => (.cooldown, true)
  | .idle, true => (.idle, false)
  | .cooldown, false => (.cooldown, false)
  | .cooldown, true => (.idle, false)

/-- Control state before processing the `n`-th button read of the stream
`reads`; the machine starts in `idle` at the top of `main`'s loop. -/
def triggerStateAt (reads : ℕ → Bool) : ℕ → TriggerState
  | 0 => .idle
  | n + 1 => (triggerStep (triggerStateAt reads n) (reads n)).1

/-- Whether an emission session runs while processing the `n`-th button read. -/
def sessionFiredAt (reads : ℕ → Bool) (n : ℕ) : Bool :=
  (triggerStep (triggerStateAt reads n) (reads n)).2

theorem sessionFiredAt_iff (reads : ℕ → Bool) (n : ℕ) :
    sessionFiredAt reads n = true ↔
      triggerStateAt reads n = .idle ∧ reads n = false := by
  unfold sessionFiredAt
  cases hs : triggerStateAt reads n <;> cases hr : reads n <;>
    simp [triggerStep, hs, hr]

/-- Discrete intermediate-value principle: a property true at `a` and false at
`b > a` fails for the first time at some `k` in `[a, b)`. -/
theorem exists_transition_point (P : ℕ → Prop) :
    ∀ b a, a ≤ b → P a → ¬P b → ∃ k, a ≤ k ∧ k < b ∧ P k ∧ ¬P (k + 1) := by
  intro b
  induction b with
  | zero =>
    intro a hab ha hb
    exact absurd (Nat.le_zero.mp hab ▸ ha) hb
  | succ m ih =>
    intro a hab ha hb
    have ham : a ≤ m := by
      rcases Nat.lt_or_ge a (m + 1) with h | h
      · omega
      · exact absurd (Nat.le_antisymm hab h ▸ ha) hb
    by_cases hm : P m
    · exact ⟨m, ham, Nat.lt_succ_self m, hm, hb⟩
    · obtain ⟨k, hk1, hk2, hk3, hk4⟩ := ih a ham ha hm
      exact ⟨k, hk1, by omega, hk3, hk4⟩

/-- Claim C6: in the gated variant, the controller never starts a new emission
session until the button has first been observed released (read logically
high) while in the release-wait (cooldown) loop: between any two button reads
that each trigger a session there is a read where the machine is in `cooldown`
and the button reads released, i.e. the observed `Cooldown -> Idle` release
transition. -/
theorem trigger_release_between_sessions (reads : ℕ → Bool) (i j : ℕ)
    (hij : i < j) (hi : sessionFiredAt reads i = true)
    (hj : sessionFiredAt reads j = true) :
    ∃ k, i < k ∧ k < j ∧ triggerStateAt reads k = .cooldown ∧ reads k = true := by
  obtain ⟨hsi, hri⟩ := (sessionFiredAt_iff reads i).mp hi
  obtain ⟨hsj, hrj⟩ := (sessionFiredAt_iff reads j).mp hj
  have hstep : triggerStateAt reads (i + 1) = .cooldown := by
    unfold triggerStateAt
    rw [hsi, hri]
    rfl
  have hij1 : i + 1 ≤ j := hij
  obtain ⟨k, hk1, hk2, hk3, hk4⟩ :=
    exists_transition_point (fun n => triggerStateAt reads n = .cooldown) j (i + 1)
      hij1 hstep (by simp only []; rw [hsj]; intro hcon; exact TriggerState.noConfusion hcon)
  refine ⟨k, by omega, hk2, hk3, ?_⟩
  cases hr : reads k with
  | false =>
    exfalso
    apply hk4
    unfold triggerStateAt
    rw [hk3, hr]
    rfl
  | true => rfl

/-- Witness for C6: the read stream pressed, released, pressed fires sessions
at reads 0 and 2, with the observed release at read 1. -/
theorem trigger_release_between_sessions_witness :
    (0 < 2) ∧ (sessionFiredAt (fun n => n == 1) 0 = true) ∧
    (sessionFiredAt (fun n => n == 1) 2 = true) ∧
    (∃ k, 0 < k ∧ k < 2 ∧ triggerStateAt (fun n => n == 1) k = .cooldown ∧
      (fun n : ℕ => n == 1) k = true) :=
  ⟨by decide, by decide, by decide,
    trigger_release_between_sessions (fun n => n == 1) 0 2 (by decide) (by decide)
      (by decide)⟩

end SignalGenerator
